import Mathlib

/-!
Shallow embedding of the crawl orchestration engine in `src/api/server.js`
(siftor-backend): the bounded breadth-first traversal over a link graph,
the visited/frontier bookkeeping, the per-page structured-content
extraction, the link-discovery/scope-filtering policy, and the
result-streaming protocol of the WebSocket message handler.

External collaborators (the headless browser, the HTML query engine, the
URL library, the WebSocket channel) enter the model as oracles packed in
a `World` record: `fetch n u` abstracts `page.goto` + `page.content` +
`cheerio.load` for the session's n-th navigation attempt when it targets
`u` (attempts are numbered across the session, so the same URL may fail
on one attempt and succeed on a later one, as the real renderer can),
`resolve` abstracts `new URL(href, base).href`, `origin` abstracts
`new URL(url).origin`, and `sendOk` abstracts whether the n-th `ws.send`
of a session throws.  The traversal loop itself is translated
line by line from the source; it is driven by explicit fuel (the real
loop terminates because the visited ledger is capped, so any fuel large
enough for the instance gives the exact behaviour).

JavaScript's `String.prototype.trim` and `String.prototype.startsWith`
are modelled as `jsTrim` and `jsStartsWith` over the character list of a
Lean `String`, so that concrete runs evaluate inside the kernel.
-/

/-- JavaScript `s.trim()`: strip leading and trailing whitespace. -/
def jsTrim (s : String) : String :=
  ⟨((s.data.dropWhile Char.isWhitespace).reverse.dropWhile
      Char.isWhitespace).reverse⟩

/-- JavaScript `s.startsWith(pre)`: prefix containment on characters. -/
def jsStartsWith (s pre : String) : Bool :=
  pre.data.isPrefixOf s.data

/-- One element returned by the query `$('h1, h2, h3, h4, h5, h6, p, span,
li, pre, code')`, in document order: its lowercased tag name and its raw
text content (before trimming, which the code applies itself). -/
structure Elem where
  tag : String
  text : String
deriving Repr, DecidableEq

/-- One `{ tag, text }` entry of a section's `content` array
(server.js line 132). -/
structure ContentItem where
  tag : String
  text : String
deriving Repr, DecidableEq

/-- A section `{ title, content }` as built by the extraction loop
(server.js lines 119, 130). -/
structure Sect where
  title : String
  content : List ContentItem
deriving Repr, DecidableEq

/-- `tag.startsWith('h')` (server.js line 126).  On the selected tag set
{h1..h6, p, span, li, pre, code} this is exactly "is a heading". -/
def isHeading (tag : String) : Bool :=
  jsStartsWith tag "h"

/-- The body of the `.each` extraction loop (server.js lines 121-135)
together with the final flush (lines 137-139): `acc` is `pageData`,
`cur` is `currentSection`.  Elements whose trimmed text is empty are
skipped; a heading flushes the current section when its content is
non-empty and starts a fresh one titled by the heading's text; any other
element appends `(tag, text)` to the current section. -/
def extractAux : List Elem → List Sect → Sect → List Sect
  | [], acc, cur =>
      if cur.content.length > 0 then acc ++ [cur] else acc
  | e :: es, acc, cur =>
      if jsTrim e.text = "" then
        extractAux es acc cur
      else if isHeading e.tag then
        if cur.content.length > 0 then
          extractAux es (acc ++ [cur]) ⟨jsTrim e.text, []⟩
        else
          extractAux es acc ⟨jsTrim e.text, []⟩
      else
        extractAux es acc ⟨cur.title, cur.content ++ [⟨e.tag, jsTrim e.text⟩]⟩

/-- The Extractor (server.js lines 118-139): walk the selected elements
in document order starting from `pageData = []` and
`currentSection = { title: "", content: [] }`. -/
def extract (elems : List Elem) : List Sect :=
  extractAux elems [] ⟨"", []⟩

-- ### The crawl session: data model and oracles

/-- `MAX_PAGES` (server.js line 39): the page cap on the visited ledger. -/
def MAX_PAGES : Nat := 1000

/-- A `{ url, data }` entry of `scrapedData` (server.js line 141). -/
structure PageRecord where
  url : String
  data : List Sect
deriving Repr, DecidableEq

/-- One outbound message of a session's stream: `{visiting: url}`
(line 102), the final `{scrapedData: [...]}` (line 164), or an
`{error: msg}` (lines 68, 77, 172). -/
inductive Event where
  | visiting (url : String)
  | result (data : List PageRecord)
  | error (msg : String)
deriving Repr, DecidableEq

/-- What the rendered document of one URL offers the session: the
elements selected by the extraction query (in document order) and the
`href` attributes of the `a[href]` anchors (in document order). -/
structure Doc where
  elems : List Elem
  hrefs : List String
deriving Repr, DecidableEq

/-- Outcome of `page.goto` + `page.content` for one URL: `navFail` is a
navigation failure (caught at lines 110-113, the URL is skipped),
`contentErr` is a failure after navigation (e.g. `page.content()`
throwing), which the loop does not catch and which therefore propagates
to the outer handler (line 169), and `ok doc` is a successful render. -/
inductive FetchResult where
  | navFail
  | contentErr
  | ok (doc : Doc)
deriving Repr, DecidableEq

/-- The external collaborators of one message handling, as oracles:
`launchOk` is whether `puppeteer.launch`/`newPage` succeed, `origin u`
is `new URL(u).origin` (`none` = the constructor throws), `fetch n u` is
the render outcome of the session's n-th navigation attempt when that
attempt targets `u` — `page.goto` is a fresh attempt each time it is
called, so outcomes are indexed per attempt (like `sendOk`), not fixed
per URL — `resolve href base` is `new URL(href, base).href` (`none` =
the constructor throws), and `sendOk n` is whether the session's n-th
`ws.send` succeeds. -/
structure World where
  launchOk : Bool
  origin : String → Option String
  fetch : Nat → String → FetchResult
  resolve : String → String → Option String
  sendOk : Nat → Bool

/-- The mutable state of the traversal loop (server.js lines 87-89),
plus instrumentation: `events` is the outbound messages delivered so
far, `sendCount` numbers the `ws.send` attempts, `navs` is the sequence
of URLs passed to `page.goto`, and `pops` is the sequence of URLs
popped from the frontier by `urlQueue.shift()`. -/
structure CrawlState where
  urlQueue : List String
  visitedUrls : List String
  scrapedData : List PageRecord
  events : List Event
  sendCount : Nat
  navs : List String
  pops : List String
deriving Repr, DecidableEq

/-- How one traversal loop run ends: the `while` condition turning false
(`normal`), the `break` on a failed `visiting` send (line 105,
`sendBreak`), or an uncaught exception (`crashed`). -/
inductive LoopExit where
  | normal
  | sendBreak
  | crashed
deriving Repr, DecidableEq

/-- The link-discovery loop (server.js lines 143-155): for each raw
`href`, if it is truthy and not in the visited ledger, resolve it
against `base` (the scope anchor); a failed resolution is ignored, and
a resolved URL is appended to the back of the queue exactly when it
starts with `base`. -/
def processLinks (resolve : String → String → Option String)
    (visitedUrls : List String) (base : String)
    (urlQueue : List String) (hrefs : List String) : List String :=
  hrefs.foldl (fun q link =>
    if link ≠ "" ∧ visitedUrls.contains link = false then
      match resolve link base with
      | some absoluteLink =>
          if jsStartsWith absoluteLink base then q ++ [absoluteLink] else q
      | none => q
    else q) urlQueue

/-- One iteration of the `while` loop (server.js lines 94-158).  Returns
the successor state and `some exit` when the loop terminates at this
iteration, `none` when it continues:
* empty queue or ledger at the cap: the `while` condition fails;
* popped URL already visited: `continue` (line 97);
* `ws.send({visiting})` throws: `break` (line 105);
* navigation fails: `continue` (line 112), the URL is neither recorded
  nor added to the ledger;
* content/render error after navigation: the exception escapes the loop;
* success: extract sections, append the `PageRecord`, enqueue in-scope
  links (against the ledger *before* the current URL is added), then add
  the current URL to the ledger (line 157).

The navigation attempt made here is the session's `s.navs.length`-th,
so its outcome is `w.fetch s.navs.length currentUrl`. -/
def crawlStep (w : World) (base : String) (cap : Nat) (s : CrawlState) :
    CrawlState × Option LoopExit :=
  match s.urlQueue with
  | [] => (s, some LoopExit.normal)
  | currentUrl :: rest =>
    if s.visitedUrls.length < cap then
      if s.visitedUrls.contains currentUrl then
        ({ s with urlQueue := rest, pops := s.pops ++ [currentUrl] }, none)
      else if w.sendOk s.sendCount then
        match w.fetch s.navs.length currentUrl with
        | FetchResult.navFail =>
            ({ s with urlQueue := rest,
                      pops := s.pops ++ [currentUrl],
                      events := s.events ++ [Event.visiting currentUrl],
                      sendCount := s.sendCount + 1,
                      navs := s.navs ++ [currentUrl] }, none)
        | FetchResult.contentErr =>
            ({ s with urlQueue := rest,
                      pops := s.pops ++ [currentUrl],
                      events := s.events ++ [Event.visiting currentUrl],
                      sendCount := s.sendCount + 1,
                      navs := s.navs ++ [currentUrl] }, some LoopExit.crashed)
        | FetchResult.ok doc =>
            ({ s with urlQueue :=
                        processLinks w.resolve s.visitedUrls base rest doc.hrefs,
                      visitedUrls := s.visitedUrls ++ [currentUrl],
                      scrapedData :=
                        s.scrapedData ++ [⟨currentUrl, extract doc.elems⟩],
                      events := s.events ++ [Event.visiting currentUrl],
                      sendCount := s.sendCount + 1,
                      navs := s.navs ++ [currentUrl],
                      pops := s.pops ++ [currentUrl] }, none)
      else
        ({ s with urlQueue := rest, pops := s.pops ++ [currentUrl],
                  sendCount := s.sendCount + 1 }, some LoopExit.sendBreak)
    else (s, some LoopExit.normal)

/-- The `while` loop itself, iterating `crawlStep`.  Fuel makes the
recursion structural; the loop of the source terminates on its own
(ledger capped, queue growth bounded per visit), so every sufficiently
large fuel yields the source's behaviour, and fuel exhaustion is
reported as a `normal` exit. -/
def crawlLoop (w : World) (base : String) (cap : Nat) :
    Nat → CrawlState → CrawlState × LoopExit
  | 0, s => (s, LoopExit.normal)
  | fuel + 1, s =>
    match crawlStep w base cap s with
    | (s', some exit) => (s', exit)
    | (s', none) => crawlLoop w base cap fuel s'

/-- A `ws.send` attempt with send number `i`: the event is delivered
exactly when the channel accepts it. -/
def sendEvent (w : World) (i : Nat) (e : Event) : List Event :=
  if w.sendOk i then [e] else []

/-- The loop's initial state (server.js lines 87-89):
`urlQueue = [url]`, empty ledger, no results. -/
def initState (url : String) : CrawlState :=
  { urlQueue := [url], visitedUrls := [], scrapedData := [], events := [],
    sendCount := 0, navs := [], pops := [] }

/-- Observable outcome of one crawl session: delivered events, whether a
renderer was launched and whether it was closed, and the final ledger,
results and instrumentation. -/
structure RunResult where
  events : List Event
  launched : Bool
  closed : Bool
  visitedUrls : List String
  scrapedData : List PageRecord
  navs : List String
  pops : List String
deriving Repr, DecidableEq

/-- The session body (server.js lines 81-179), given a non-falsy `url`:
launch the renderer (a failure lands in the outer catch with no renderer
to close), compute the scope anchor `new URL(url).origin` (a throw lands
in the outer catch, which closes the renderer), run the traversal loop,
and on exit close the renderer and send the final result — or, if the
loop crashed, send an error event and close the renderer (lines
169-178). -/
def runSession (w : World) (fuel : Nat) (url : String) : RunResult :=
  if w.launchOk = false then
    { events := sendEvent w 0 (Event.error "An unexpected error occurred."),
      launched := false, closed := false, visitedUrls := [],
      scrapedData := [], navs := [], pops := [] }
  else
    match w.origin url with
    | none =>
      { events := sendEvent w 0 (Event.error "An unexpected error occurred."),
        launched := true, closed := true, visitedUrls := [],
        scrapedData := [], navs := [], pops := [] }
    | some baseUrl =>
      match crawlLoop w baseUrl MAX_PAGES fuel (initState url) with
      | (s, LoopExit.crashed) =>
        { events := s.events ++
            sendEvent w s.sendCount (Event.error "An unexpected error occurred."),
          launched := true, closed := true, visitedUrls := s.visitedUrls,
          scrapedData := s.scrapedData, navs := s.navs, pops := s.pops }
      | (s, LoopExit.normal) =>
        { events := s.events ++
            sendEvent w s.sendCount (Event.result s.scrapedData),
          launched := true, closed := true, visitedUrls := s.visitedUrls,
          scrapedData := s.scrapedData, navs := s.navs, pops := s.pops }
      | (s, LoopExit.sendBreak) =>
        { events := s.events ++
            sendEvent w s.sendCount (Event.result s.scrapedData),
          launched := true, closed := true, visitedUrls := s.visitedUrls,
          scrapedData := s.scrapedData, navs := s.navs, pops := s.pops }

/-- One inbound WebSocket message, after the transport: either not
parseable as JSON, or parsed with its `url` field (`none` = the field is
missing or not a string). -/
inductive Inbound where
  | malformed
  | parsed (url : Option String)

/-- The `ws.on('message')` handler (server.js lines 62-179): a parse
failure or a falsy `url` emits one error event and creates no session;
otherwise the session runs.  The returned `Option RunResult` is the
session created for this message, if any. -/
def handleMessage (w : World) (fuel : Nat) :
    Inbound → List Event × Option RunResult
  | Inbound.malformed =>
      (sendEvent w 0 (Event.error "Invalid message format"), none)
  | Inbound.parsed none =>
      (sendEvent w 0 (Event.error "URL is required"), none)
  | Inbound.parsed (some url) =>
      if url = "" then
        (sendEvent w 0 (Event.error "URL is required"), none)
      else
        let r := runSession w fuel url
        (r.events, some r)

-- ### Concrete fixtures for the scenario theorems

/-- URL resolution oracle for the concrete scenarios, agreeing with
`new URL(href, base).href` on every input the scenarios use: absolute
`http(s)` references resolve to themselves, root-relative references
concatenate onto the origin `base`, anything else goes below `base`,
and the malformed reference `"::"` fails to parse. -/
def testResolve (href base : String) : Option String :=
  if href = "::" then none
  else if jsStartsWith href "http" then some href
  else if jsStartsWith href "/" then some (String.mk (base.data ++ href.data))
  else some (String.mk (base.data ++ '/' :: href.data))

/-- Origin oracle for the concrete scenarios, agreeing with
`new URL(u).origin` on every URL the scenarios use. -/
def testOrigin (u : String) : Option String :=
  if jsStartsWith u "https://a.example" then some "https://a.example"
  else none

/-- C2 scenario world: the seed renders and links to `/u2` and `/u3`;
`https://a.example/u2` fails to navigate; `https://a.example/u3`
renders with no further links.  (The scenario oracles do not depend on
the attempt number: each URL behaves the same on every attempt.) -/
def fetchFailCont (_ : Nat) (u : String) : FetchResult :=
  if u = "https://a.example/" then
    FetchResult.ok ⟨[⟨"p", "hello"⟩], ["/u2", "/u3"]⟩
  else if u = "https://a.example/u3" then
    FetchResult.ok ⟨[⟨"p", "three"⟩], []⟩
  else FetchResult.navFail

def wFailCont : World :=
  ⟨true, testOrigin, fetchFailCont, testResolve, fun _ => true⟩

/-- C6 counterexample world: the seed links to `/b` twice and
`https://a.example/b` always fails to navigate. -/
def fetchDupNav (_ : Nat) (u : String) : FetchResult :=
  if u = "https://a.example/" then
    FetchResult.ok ⟨[], ["/b", "/b"]⟩
  else FetchResult.navFail

def wDupNav : World :=
  ⟨true, testOrigin, fetchDupNav, testResolve, fun _ => true⟩

/-- C7 counterexample world: the seed links to `/b` twice and
`https://a.example/b` renders with no content and no links. -/
def fetchDupSkip (_ : Nat) (u : String) : FetchResult :=
  if u = "https://a.example/" then
    FetchResult.ok ⟨[], ["/b", "/b"]⟩
  else if u = "https://a.example/b" then
    FetchResult.ok ⟨[], []⟩
  else FetchResult.navFail

def wDupSkip : World :=
  ⟨true, testOrigin, fetchDupSkip, testResolve, fun _ => true⟩

/-- Minimal witness world: the seed renders with no content and no
links. -/
def fetchSimple (_ : Nat) (u : String) : FetchResult :=
  if u = "https://a.example/" then FetchResult.ok ⟨[], []⟩
  else FetchResult.navFail

def wSimple : World :=
  ⟨true, testOrigin, fetchSimple, testResolve, fun _ => true⟩

-- ### The loop invariant

/-- Invariant of the traversal loop, carried through the session-level
theorems.  The `i`-th element of `s.navs` (0-based) was fetched as the
session's `i`-th navigation attempt, so a split `s.navs = l₁ ++ u :: l₂`
pins its outcome to `w.fetch l₁.length u`.  The ledger is duplicate-free
and never larger than the cap; the delivered events are exactly the
`visiting` events of the navigation attempts, in order; an attempt that
returned a rendered document put its URL into the ledger and its
`PageRecord` (with its extracted sections) into the result list; and a
URL occupies two positions of the navigation sequence only if the
attempt at the earlier position was a navigation failure (a successful
attempt enters the ledger, and the pop-time check then discards every
later frontier copy of that URL). -/
structure LoopInv (w : World) (cap : Nat) (s : CrawlState) : Prop where
  nodup : s.visitedUrls.Nodup
  bound : s.visitedUrls.length ≤ cap
  trace : s.events = s.navs.map Event.visiting
  okVisited : ∀ l₁ u l₂ d, s.navs = l₁ ++ u :: l₂ →
    w.fetch l₁.length u = FetchResult.ok d → u ∈ s.visitedUrls
  okScraped : ∀ l₁ u l₂ d, s.navs = l₁ ++ u :: l₂ →
    w.fetch l₁.length u = FetchResult.ok d →
    (⟨u, extract d.elems⟩ : PageRecord) ∈ s.scrapedData
  dupFail : ∀ l₁ u l₂ l₃, s.navs = l₁ ++ u :: l₂ ++ u :: l₃ →
    w.fetch l₁.length u = FetchResult.navFail

/-- Strengthening of `LoopInv` recording additionally that no navigation
attempt so far ended in an uncaught render error: this holds at every
state from which the loop continues (a `contentErr` attempt stops the
loop at once, so the crashed final state keeps `LoopInv` but not this
clause). -/
structure StrongInv (w : World) (cap : Nat) (s : CrawlState)
    extends LoopInv w cap s : Prop where
  noCrash : ∀ l₁ u l₂, s.navs = l₁ ++ u :: l₂ →
    w.fetch l₁.length u ≠ FetchResult.contentErr

-- ### Extractor lemmas

theorem extractAux_append (es : List Elem) (a : List Sect) :
    ∀ acc cur, extractAux es (a ++ acc) cur = a ++ extractAux es acc cur := by
  induction es with
  | nil =>
      intro acc cur
      by_cases hc : cur.content.length > 0
      · simp [extractAux, hc]
      · simp [extractAux, hc]
  | cons e es ih =>
      intro acc cur
      by_cases ht : jsTrim e.text = ""
      · simp only [extractAux, if_pos ht]
        exact ih acc cur
      · by_cases hhd : isHeading e.tag = true
        · by_cases hc : cur.content.length > 0
          · simp only [extractAux, if_neg ht, if_pos hhd, if_pos hc]
            rw [List.append_assoc]
            exact ih (acc ++ [cur]) ⟨jsTrim e.text, []⟩
          · simp only [extractAux, if_neg ht, if_pos hhd, if_neg hc]
            exact ih acc ⟨jsTrim e.text, []⟩
        · simp only [extractAux, if_neg ht, if_neg hhd]
          exact ih acc ⟨cur.title, cur.content ++ [⟨e.tag, jsTrim e.text⟩]⟩

theorem extractAux_nonempty_content (es : List Elem) :
    ∀ acc cur, (∀ s ∈ acc, s.content ≠ []) →
      ∀ s ∈ extractAux es acc cur, s.content ≠ [] := by
  induction es with
  | nil =>
      intro acc cur hacc s hs
      simp only [extractAux] at hs
      split at hs
      next hlen =>
        rcases List.mem_append.1 hs with h | h
        · exact hacc s h
        · rcases List.mem_singleton.1 h with rfl
          exact List.length_pos.1 hlen
      next => exact hacc s hs
  | cons e es ih =>
      intro acc cur hacc s hs
      simp only [extractAux] at hs
      split at hs
      · exact ih acc cur hacc s hs
      · split at hs
        · split at hs
          next hlen =>
            refine ih _ _ ?_ s hs
            intro t ht
            rcases List.mem_append.1 ht with h | h
            · exact hacc t h
            · rcases List.mem_singleton.1 h with rfl
              exact List.length_pos.1 hlen
          next => exact ih acc _ hacc s hs
        · exact ih acc _ hacc s hs

theorem extractAux_all_headings (es : List Elem) :
    ∀ acc cur, cur.content = [] → (∀ e ∈ es, isHeading e.tag = true) →
      extractAux es acc cur = acc := by
  induction es with
  | nil =>
      intro acc cur hcur _
      simp [extractAux, hcur]
  | cons e es ih =>
      intro acc cur hcur hh
      by_cases ht : jsTrim e.text = ""
      · simp only [extractAux, if_pos ht]
        exact ih acc cur hcur fun x hx => hh x (List.mem_cons_of_mem e hx)
      · simp only [extractAux, if_neg ht, if_pos (hh e (List.mem_cons_self e es))]
        rw [if_neg (by simp [hcur])]
        exact ih acc _ rfl fun x hx => hh x (List.mem_cons_of_mem e hx)

theorem extractAux_committed (es : List Elem) :
    ∀ acc cur, cur.content ≠ [] →
      ∃ c tl, extractAux es acc cur = acc ++ ⟨cur.title, c⟩ :: tl := by
  induction es with
  | nil =>
      intro acc cur hcur
      refine ⟨cur.content, [], ?_⟩
      simp only [extractAux]
      rw [if_pos (List.length_pos.2 hcur)]
  | cons e es ih =>
      intro acc cur hcur
      by_cases ht : jsTrim e.text = ""
      · simpa only [extractAux, if_pos ht] using ih acc cur hcur
      · by_cases hhd : isHeading e.tag = true
        · refine ⟨cur.content, extractAux es [] ⟨jsTrim e.text, []⟩, ?_⟩
          simp only [extractAux, if_neg ht, if_pos hhd,
            if_pos (List.length_pos.2 hcur)]
          have h : extractAux es (acc ++ [cur]) ⟨jsTrim e.text, []⟩ =
              acc ++ cur :: extractAux es [] ⟨jsTrim e.text, []⟩ := by
            have h2 := extractAux_append es (acc ++ [cur]) [] ⟨jsTrim e.text, []⟩
            simpa using h2
          exact h
        · simp only [extractAux, if_neg ht, if_neg hhd]
          obtain ⟨c, tl, h⟩ :=
            ih acc ⟨cur.title, cur.content ++ [⟨e.tag, jsTrim e.text⟩]⟩ (by simp)
          exact ⟨c, tl, h⟩

theorem extractAux_skip_blanks (pre : List Elem) (rest : List Elem) :
    ∀ acc cur, (∀ e ∈ pre, jsTrim e.text = "") →
      extractAux (pre ++ rest) acc cur = extractAux rest acc cur := by
  induction pre with
  | nil => intro acc cur _; rfl
  | cons e p ih =>
      intro acc cur hb
      simp only [List.cons_append, extractAux,
        if_pos (hb e (List.mem_cons_self e p))]
      exact ih acc cur fun x hx => hb x (List.mem_cons_of_mem e hx)

/-- C4 counterexample: on the document `<h1>A</h1><p>x</p><h2>B</h2>` the
extraction loop yields exactly ONE section, not two: `B` opens a fresh
in-progress section whose content stays empty, and the final flush skips
empty sections. -/
theorem C4_counterexample :
    (extract [⟨"h1", "A"⟩, ⟨"p", "x"⟩, ⟨"h2", "B"⟩]).length ≠ 2 := by
  decide

/-- C4 (amended): the document `<h1>A</h1><p>x</p><h2>B</h2>` yields
exactly one section, `{title := "A", content := [("p", "x")]}`; `B` is
not emitted as a section because it has no subsequent content-bearing
element before the document ends. -/
theorem C4_section_boundary :
    extract [⟨"h1", "A"⟩, ⟨"p", "x"⟩, ⟨"h2", "B"⟩] =
      [⟨"A", [⟨"p", "x"⟩]⟩] := by
  decide

/-- C5: the Extractor never flushes a section with empty content; a page
whose selected elements are all headings yields no sections; and a page
whose first content-bearing element is not a heading yields a leading
section with title `""`. -/
theorem C5_no_empty_sections :
    (∀ elems, ∀ s ∈ extract elems, s.content ≠ []) ∧
    (∀ elems, (∀ e ∈ elems, isHeading e.tag = true) → extract elems = []) ∧
    (∀ pre e rest, (∀ x ∈ pre, jsTrim x.text = "") → jsTrim e.text ≠ "" →
      isHeading e.tag = false →
      ∃ c tl, extract (pre ++ e :: rest) = ⟨"", c⟩ :: tl) := by
  refine ⟨?_, ?_, ?_⟩
  · intro elems s hs
    exact extractAux_nonempty_content elems [] ⟨"", []⟩ (by simp) s hs
  · intro elems hh
    exact extractAux_all_headings elems [] ⟨"", []⟩ rfl hh
  · intro pre e rest hpre hne hnh
    unfold extract
    rw [extractAux_skip_blanks pre (e :: rest) [] ⟨"", []⟩ hpre]
    simp only [extractAux, if_neg hne, hnh]
    simp only [Bool.false_eq_true, if_false]
    obtain ⟨c, tl, h⟩ := extractAux_committed rest []
      ⟨"", [⟨e.tag, jsTrim e.text⟩]⟩ (by simp)
    exact ⟨c, tl, by simpa using h⟩

/-- Witness for C5 at concrete inputs: two consecutive headings with no
content yield no sections, and a paragraph before the first heading
yields a leading section titled `""`. -/
theorem C5_witness :
    extract [⟨"h1", "A"⟩, ⟨"h2", "B"⟩] = [] ∧
    (∃ c tl, extract ([] ++ ⟨"p", "x"⟩ :: [⟨"h1", "T"⟩, ⟨"p", "y"⟩]) =
      ⟨"", c⟩ :: tl) :=
  ⟨C5_no_empty_sections.2.1 [⟨"h1", "A"⟩, ⟨"h2", "B"⟩] (by decide),
   C5_no_empty_sections.2.2 [] ⟨"p", "x"⟩ [⟨"h1", "T"⟩, ⟨"p", "y"⟩]
     (by simp) (by decide) (by decide)⟩

-- ### Link resolver lemmas

theorem processLinks_single (resolve : String → String → Option String)
    (visitedUrls : List String) (base : String) (urlQueue : List String)
    (link : String) :
    processLinks resolve visitedUrls base urlQueue [link] =
      if link ≠ "" ∧ visitedUrls.contains link = false then
        match resolve link base with
        | some absoluteLink =>
            if jsStartsWith absoluteLink base then urlQueue ++ [absoluteLink]
            else urlQueue
        | none => urlQueue
      else urlQueue := rfl

theorem extract_blank (elems : List Elem)
    (h : ∀ e ∈ elems, jsTrim e.text = "") : extract elems = [] := by
  have h2 := extractAux_skip_blanks elems [] [] ⟨"", []⟩ h
  simpa [extract, extractAux] using h2

-- ### Traversal loop lemmas

theorem sendEvent_shape (w : World) (i : Nat) (e : Event) :
    sendEvent w i e = [] ∨ sendEvent w i e = [e] := by
  unfold sendEvent
  by_cases h : w.sendOk i = true
  · rw [if_pos h]; exact Or.inr rfl
  · rw [if_neg h]; exact Or.inl rfl

theorem concat_eq_append_cons (xs l₁ l₂ : List String) (a u : String)
    (h : xs ++ [a] = l₁ ++ u :: l₂) :
    (l₁ = xs ∧ u = a ∧ l₂ = []) ∨
    ∃ t, l₂ = t ++ [a] ∧ xs = l₁ ++ u :: t := by
  rcases List.eq_nil_or_concat l₂ with rfl | ⟨t, b, rfl⟩
  · left
    obtain ⟨h3, h4⟩ := List.append_inj' h rfl
    injection h4 with h5
    exact ⟨h3.symm, h5.symm, rfl⟩
  · right
    have hr : l₁ ++ u :: t.concat b = (l₁ ++ u :: t) ++ [b] := by simp
    rw [hr] at h
    obtain ⟨h3, h4⟩ := List.append_inj' h rfl
    injection h4 with h5
    exact ⟨t, by simp [h5], h3⟩

theorem strongInv_init (w : World) (url : String) :
    StrongInv w MAX_PAGES (initState url) := by
  refine ⟨⟨?_, ?_, ?_, ?_, ?_, ?_⟩, ?_⟩
  · simp [initState]
  · simp [initState, MAX_PAGES]
  · simp [initState]
  · intro l₁ u l₂ d hsplit
    simp [initState] at hsplit
  · intro l₁ u l₂ d hsplit
    simp [initState] at hsplit
  · intro l₁ u l₂ l₃ hsplit
    simp [initState] at hsplit
  · intro l₁ u l₂ hsplit
    simp [initState] at hsplit

theorem crawlStep_bound (w : World) (base : String) (cap : Nat)
    (s : CrawlState) (h : s.visitedUrls.length ≤ cap) :
    (crawlStep w base cap s).1.visitedUrls.length ≤ cap := by
  unfold crawlStep
  split
  · exact h
  next currentUrl rest hq =>
    by_cases hcap : s.visitedUrls.length < cap
    · rw [if_pos hcap]
      by_cases hvis : s.visitedUrls.contains currentUrl = true
      · rw [if_pos hvis]; exact h
      · rw [if_neg hvis]
        by_cases hsend : w.sendOk s.sendCount = true
        · rw [if_pos hsend]
          split
          · exact h
          · exact h
          next doc hf =>
            show (s.visitedUrls ++ [currentUrl]).length ≤ cap
            have hlen : (s.visitedUrls ++ [currentUrl]).length =
                s.visitedUrls.length + 1 := by simp
            omega
        · rw [if_neg hsend]; exact h
    · rw [if_neg hcap]; exact h

theorem crawlStep_invs (w : World) (base : String) (cap : Nat)
    (s : CrawlState) (h : StrongInv w cap s) :
    LoopInv w cap (crawlStep w base cap s).1 ∧
    ((crawlStep w base cap s).2 = none →
      StrongInv w cap (crawlStep w base cap s).1) := by
  obtain ⟨⟨hnd, hb, htr, hv, hsc, hdup⟩, hnc⟩ := h
  unfold crawlStep
  split
  · exact ⟨⟨hnd, hb, htr, hv, hsc, hdup⟩,
      fun _ => ⟨⟨hnd, hb, htr, hv, hsc, hdup⟩, hnc⟩⟩
  next u0 rest hq =>
    by_cases hcap : s.visitedUrls.length < cap
    · rw [if_pos hcap]
      by_cases hvis : s.visitedUrls.contains u0 = true
      · rw [if_pos hvis]
        exact ⟨⟨hnd, hb, htr, hv, hsc, hdup⟩,
          fun _ => ⟨⟨hnd, hb, htr, hv, hsc, hdup⟩, hnc⟩⟩
      · rw [if_neg hvis]
        have hcf : s.visitedUrls.contains u0 = false := by simpa using hvis
        have hu_nin : u0 ∉ s.visitedUrls := by simpa using hcf
        have hdup2 : ∀ l₁ u l₂ l₃,
            s.navs ++ [u0] = l₁ ++ u :: l₂ ++ u :: l₃ →
            w.fetch l₁.length u = FetchResult.navFail := by
          intro l₁ u l₂ l₃ hsplit0
          have hsplit : s.navs ++ [u0] = l₁ ++ u :: (l₂ ++ u :: l₃) := by
            rw [hsplit0]; simp
          rcases concat_eq_append_cons s.navs l₁ (l₂ ++ u :: l₃) u0 u hsplit
            with ⟨rfl, rfl, habs⟩ | ⟨t, ht, hxs⟩
          · exact absurd habs (by simp)
          · rcases concat_eq_append_cons t l₂ l₃ u0 u ht.symm
              with ⟨h4, h5, h6⟩ | ⟨t2, ht2, hxs2⟩
            · have hun : u ∉ s.visitedUrls := by rw [h5]; exact hu_nin
              cases hfo : w.fetch l₁.length u with
              | navFail => rfl
              | contentErr => exact absurd hfo (hnc l₁ u t hxs)
              | ok d => exact absurd (hv l₁ u t d hxs hfo) hun
            · exact hdup l₁ u l₂ t2 (by rw [hxs, hxs2]; simp)
        by_cases hsend : w.sendOk s.sendCount = true
        · rw [if_pos hsend]
          split
          next hf =>
            have htr2 : s.events ++ [Event.visiting u0] =
                (s.navs ++ [u0]).map Event.visiting := by simp [htr]
            have hv2 : ∀ l₁ u l₂ d, s.navs ++ [u0] = l₁ ++ u :: l₂ →
                w.fetch l₁.length u = FetchResult.ok d →
                u ∈ s.visitedUrls := by
              intro l₁ u l₂ d hsplit hfk
              rcases concat_eq_append_cons s.navs l₁ l₂ u0 u hsplit
                with ⟨rfl, rfl, rfl⟩ | ⟨t, ht, hxs⟩
              · rw [hf] at hfk
                exact FetchResult.noConfusion hfk
              · exact hv l₁ u t d hxs hfk
            have hsc2 : ∀ l₁ u l₂ d, s.navs ++ [u0] = l₁ ++ u :: l₂ →
                w.fetch l₁.length u = FetchResult.ok d →
                (⟨u, extract d.elems⟩ : PageRecord) ∈ s.scrapedData := by
              intro l₁ u l₂ d hsplit hfk
              rcases concat_eq_append_cons s.navs l₁ l₂ u0 u hsplit
                with ⟨rfl, rfl, rfl⟩ | ⟨t, ht, hxs⟩
              · rw [hf] at hfk
                exact FetchResult.noConfusion hfk
              · exact hsc l₁ u t d hxs hfk
            have hnc2 : ∀ l₁ u l₂, s.navs ++ [u0] = l₁ ++ u :: l₂ →
                w.fetch l₁.length u ≠ FetchResult.contentErr := by
              intro l₁ u l₂ hsplit
              rcases concat_eq_append_cons s.navs l₁ l₂ u0 u hsplit
                with ⟨rfl, rfl, rfl⟩ | ⟨t, ht, hxs⟩
              · rw [hf]
                exact fun hx => FetchResult.noConfusion hx
              · exact hnc l₁ u t hxs
            exact ⟨⟨hnd, hb, htr2, hv2, hsc2, hdup2⟩,
              fun _ => ⟨⟨hnd, hb, htr2, hv2, hsc2, hdup2⟩, hnc2⟩⟩
          next hf =>
            have htr2 : s.events ++ [Event.visiting u0] =
                (s.navs ++ [u0]).map Event.visiting := by simp [htr]
            have hv2 : ∀ l₁ u l₂ d, s.navs ++ [u0] = l₁ ++ u :: l₂ →
                w.fetch l₁.length u = FetchResult.ok d →
                u ∈ s.visitedUrls := by
              intro l₁ u l₂ d hsplit hfk
              rcases concat_eq_append_cons s.navs l₁ l₂ u0 u hsplit
                with ⟨rfl, rfl, rfl⟩ | ⟨t, ht, hxs⟩
              · rw [hf] at hfk
                exact FetchResult.noConfusion hfk
              · exact hv l₁ u t d hxs hfk
            have hsc2 : ∀ l₁ u l₂ d, s.navs ++ [u0] = l₁ ++ u :: l₂ →
                w.fetch l₁.length u = FetchResult.ok d →
                (⟨u, extract d.elems⟩ : PageRecord) ∈ s.scrapedData := by
              intro l₁ u l₂ d hsplit hfk
              rcases concat_eq_append_cons s.navs l₁ l₂ u0 u hsplit
                with ⟨rfl, rfl, rfl⟩ | ⟨t, ht, hxs⟩
              · rw [hf] at hfk
                exact FetchResult.noConfusion hfk
              · exact hsc l₁ u t d hxs hfk
            exact ⟨⟨hnd, hb, htr2, hv2, hsc2, hdup2⟩,
              fun hcont => Option.noConfusion hcont⟩
          next doc hf =>
            have htr2 : s.events ++ [Event.visiting u0] =
                (s.navs ++ [u0]).map Event.visiting := by simp [htr]
            have hnd2 : (s.visitedUrls ++ [u0]).Nodup := by
              simp [List.nodup_append, hnd, hu_nin]
            have hb2 : (s.visitedUrls ++ [u0]).length ≤ cap := by
              have hlen : (s.visitedUrls ++ [u0]).length =
                  s.visitedUrls.length + 1 := by simp
              omega
            have hv2 : ∀ l₁ u l₂ d, s.navs ++ [u0] = l₁ ++ u :: l₂ →
                w.fetch l₁.length u = FetchResult.ok d →
                u ∈ s.visitedUrls ++ [u0] := by
              intro l₁ u l₂ d hsplit hfk
              rcases concat_eq_append_cons s.navs l₁ l₂ u0 u hsplit
                with ⟨rfl, rfl, rfl⟩ | ⟨t, ht, hxs⟩
              · exact List.mem_append_right _ (List.mem_singleton.2 rfl)
              · exact List.mem_append_left _ (hv l₁ u t d hxs hfk)
            have hsc2 : ∀ l₁ u l₂ d, s.navs ++ [u0] = l₁ ++ u :: l₂ →
                w.fetch l₁.length u = FetchResult.ok d →
                (⟨u, extract d.elems⟩ : PageRecord) ∈
                  s.scrapedData ++ [⟨u0, extract doc.elems⟩] := by
              intro l₁ u l₂ d hsplit hfk
              rcases concat_eq_append_cons s.navs l₁ l₂ u0 u hsplit
                with ⟨rfl, rfl, rfl⟩ | ⟨t, ht, hxs⟩
              · rw [hf] at hfk
                injection hfk with hd
                subst hd
                exact List.mem_append_right _ (List.mem_singleton.2 rfl)
              · exact List.mem_append_left _ (hsc l₁ u t d hxs hfk)
            have hnc2 : ∀ l₁ u l₂, s.navs ++ [u0] = l₁ ++ u :: l₂ →
                w.fetch l₁.length u ≠ FetchResult.contentErr := by
              intro l₁ u l₂ hsplit
              rcases concat_eq_append_cons s.navs l₁ l₂ u0 u hsplit
                with ⟨rfl, rfl, rfl⟩ | ⟨t, ht, hxs⟩
              · rw [hf]
                exact fun hx => FetchResult.noConfusion hx
              · exact hnc l₁ u t hxs
            exact ⟨⟨hnd2, hb2, htr2, hv2, hsc2, hdup2⟩,
              fun _ => ⟨⟨hnd2, hb2, htr2, hv2, hsc2, hdup2⟩, hnc2⟩⟩
        · rw [if_neg hsend]
          exact ⟨⟨hnd, hb, htr, hv, hsc, hdup⟩,
            fun hcont => Option.noConfusion hcont⟩
    · rw [if_neg hcap]
      exact ⟨⟨hnd, hb, htr, hv, hsc, hdup⟩,
        fun hcont => Option.noConfusion hcont⟩

theorem crawlLoop_invs (w : World) (base : String) (cap : Nat) :
    ∀ fuel s, StrongInv w cap s →
      LoopInv w cap (crawlLoop w base cap fuel s).1 := by
  intro fuel
  induction fuel with
  | zero => intro s hs; exact hs.toLoopInv
  | succ fuel ih =>
      intro s hs
      have hstep := crawlStep_invs w base cap s hs
      simp only [crawlLoop]
      rcases heq : crawlStep w base cap s with ⟨s2, exit⟩
      rw [heq] at hstep
      cases exit with
      | none => exact ih s2 (hstep.2 rfl)
      | some e => exact hstep.1

theorem runSession_spec (w : World) (fuel : Nat) (url : String) :
    ∃ s tail,
      (runSession w fuel url).visitedUrls = s.visitedUrls ∧
      (runSession w fuel url).scrapedData = s.scrapedData ∧
      (runSession w fuel url).navs = s.navs ∧
      (runSession w fuel url).events = s.events ++ tail ∧
      LoopInv w MAX_PAGES s ∧
      (tail = [] ∨ (∃ d, tail = [Event.result d]) ∨
        ∃ m, tail = [Event.error m]) := by
  unfold runSession
  split
  · refine ⟨initState url,
      sendEvent w 0 (Event.error "An unexpected error occurred."),
      rfl, rfl, rfl, by simp [initState], (strongInv_init w url).toLoopInv, ?_⟩
    rcases sendEvent_shape w 0 (Event.error "An unexpected error occurred.")
      with h | h
    · exact Or.inl h
    · exact Or.inr (Or.inr ⟨_, h⟩)
  · split
    · refine ⟨initState url,
        sendEvent w 0 (Event.error "An unexpected error occurred."),
        rfl, rfl, rfl, by simp [initState], (strongInv_init w url).toLoopInv, ?_⟩
      rcases sendEvent_shape w 0 (Event.error "An unexpected error occurred.")
        with h | h
      · exact Or.inl h
      · exact Or.inr (Or.inr ⟨_, h⟩)
    next baseUrl hbase =>
      split
      next st heq =>
        have hinv : LoopInv w MAX_PAGES st := by
          have hall := crawlLoop_invs w baseUrl MAX_PAGES fuel (initState url)
            (strongInv_init w url)
          rwa [heq] at hall
        refine ⟨st,
          sendEvent w st.sendCount (Event.error "An unexpected error occurred."),
          rfl, rfl, rfl, rfl, hinv, ?_⟩
        rcases sendEvent_shape w st.sendCount
          (Event.error "An unexpected error occurred.") with h | h
        · exact Or.inl h
        · exact Or.inr (Or.inr ⟨_, h⟩)
      next st heq =>
        have hinv : LoopInv w MAX_PAGES st := by
          have hall := crawlLoop_invs w baseUrl MAX_PAGES fuel (initState url)
            (strongInv_init w url)
          rwa [heq] at hall
        refine ⟨st, sendEvent w st.sendCount (Event.result st.scrapedData),
          rfl, rfl, rfl, rfl, hinv, ?_⟩
        rcases sendEvent_shape w st.sendCount (Event.result st.scrapedData)
          with h | h
        · exact Or.inl h
        · exact Or.inr (Or.inl ⟨_, h⟩)
      next st heq =>
        have hinv : LoopInv w MAX_PAGES st := by
          have hall := crawlLoop_invs w baseUrl MAX_PAGES fuel (initState url)
            (strongInv_init w url)
          rwa [heq] at hall
        refine ⟨st, sendEvent w st.sendCount (Event.result st.scrapedData),
          rfl, rfl, rfl, rfl, hinv, ?_⟩
        rcases sendEvent_shape w st.sendCount (Event.result st.scrapedData)
          with h | h
        · exact Or.inl h
        · exact Or.inr (Or.inl ⟨_, h⟩)

-- ### Claim theorems

/-- C1: for every session, the visited ledger holds distinct URLs and
its size never exceeds `MAX_PAGES`; moreover every single loop iteration
preserves the cap bound (the loop only proceeds while the ledger is
strictly below the cap and an iteration adds at most one URL). -/
theorem C1_visited_ledger_bounded :
    (∀ w fuel url, (runSession w fuel url).visitedUrls.Nodup ∧
      (runSession w fuel url).visitedUrls.length ≤ MAX_PAGES) ∧
    (∀ w base s, s.visitedUrls.length ≤ MAX_PAGES →
      (crawlStep w base MAX_PAGES s).1.visitedUrls.length ≤ MAX_PAGES) := by
  constructor
  · intro w fuel url
    obtain ⟨s, tail, hvis, _, _, _, hinv, _⟩ := runSession_spec w fuel url
    rw [hvis]
    exact ⟨hinv.nodup, hinv.bound⟩
  · intro w base s h
    exact crawlStep_bound w base MAX_PAGES s h

/-- Witness for C1 at a concrete session and a concrete iteration. -/
theorem C1_witness :
    ((runSession wSimple 10 "https://a.example/").visitedUrls.Nodup ∧
      (runSession wSimple 10 "https://a.example/").visitedUrls.length ≤
        MAX_PAGES) ∧
    (crawlStep wSimple "https://a.example" MAX_PAGES
        (initState "https://a.example/")).1.visitedUrls.length ≤ MAX_PAGES :=
  ⟨C1_visited_ledger_bounded.1 wSimple 10 "https://a.example/",
   C1_visited_ledger_bounded.2 wSimple "https://a.example"
     (initState "https://a.example/") (by decide)⟩

/-- C2: a URL whose navigation fails is not added to the visited ledger,
gets no `PageRecord`, is attempted only once in that iteration, and the
loop continues with the rest of the frontier; in the concrete scenario
where the seed links to `u2` (navigation fails) and `u3` (succeeds), the
final result set holds records for exactly the seed and `u3`, and `u2`
is absent from the ledger. -/
theorem C2_navigation_failure_skips :
    (∀ w base cap s u rest, s.urlQueue = u :: rest →
      s.visitedUrls.length < cap →
      s.visitedUrls.contains u = false →
      w.sendOk s.sendCount = true →
      w.fetch s.navs.length u = FetchResult.navFail →
      crawlStep w base cap s =
        ({ s with urlQueue := rest, pops := s.pops ++ [u],
                  events := s.events ++ [Event.visiting u],
                  sendCount := s.sendCount + 1,
                  navs := s.navs ++ [u] }, none)) ∧
    ((runSession wFailCont 10 "https://a.example/").scrapedData.map
        PageRecord.url = ["https://a.example/", "https://a.example/u3"] ∧
      "https://a.example/u2" ∉
        (runSession wFailCont 10 "https://a.example/").visitedUrls) := by
  refine ⟨?_, by decide, by decide⟩
  intro w base cap s u rest hq hcap hvis hsend hf
  simp only [crawlStep, hq]
  rw [if_pos hcap, if_neg (by rw [hvis]; exact Bool.false_ne_true), if_pos hsend, hf]

/-- Witness for C2's general part at a concrete failing iteration. -/
theorem C2_witness :
    crawlStep wSimple "https://a.example" MAX_PAGES (initState "nope") =
      ({ initState "nope" with urlQueue := [], pops := ["nope"],
                               events := [Event.visiting "nope"],
                               sendCount := 1,
                               navs := ["nope"] }, none) :=
  C2_navigation_failure_skips.1 wSimple "https://a.example" MAX_PAGES
    (initState "nope") "nope" [] rfl (by decide) (by decide) (by decide)
    (by decide)

/-- C3 counterexample: the resolved URL `https://a.example/` starts with
the scope anchor, yet it is not pushed when the raw href text already
sits in the visited ledger (as happens when a page repeats the session's
seed URL verbatim) — so "pushed iff the resolution starts with the scope
anchor" fails as an equivalence. -/
theorem C3_counterexample :
    testResolve "https://a.example/" "https://a.example" =
        some "https://a.example/" ∧
    jsStartsWith "https://a.example/" "https://a.example" = true ∧
    processLinks testResolve ["https://a.example/"] "https://a.example" []
      ["https://a.example/"] = [] := by
  refine ⟨by decide, by decide, by decide⟩

/-- C3 (amended): every href is resolved against the scope anchor `base`
(the seed's origin; the current page's URL plays no part), and —
provided the raw href text is non-empty and not already in the visited
ledger — a href that fails to resolve is discarded and a resolved href
is appended to the back of the frontier iff its string value starts with
the scope anchor; a successful visit replaces the queue by exactly this
resolver's output over the page's hrefs.  Against anchor
`https://a.example`, a link resolving to `https://a.example/page2` is
enqueued and one resolving to `https://other.example/x` is not. -/
theorem C3_scope_containment :
    (∀ resolve visitedUrls base urlQueue link r, link ≠ "" →
      visitedUrls.contains link = false →
      resolve link base = some r →
      processLinks resolve visitedUrls base urlQueue [link] =
        (if jsStartsWith r base then urlQueue ++ [r] else urlQueue)) ∧
    (∀ resolve visitedUrls base urlQueue link, link ≠ "" →
      visitedUrls.contains link = false →
      resolve link base = none →
      processLinks resolve visitedUrls base urlQueue [link] = urlQueue) ∧
    (∀ w base cap s u rest doc, s.urlQueue = u :: rest →
      s.visitedUrls.length < cap →
      s.visitedUrls.contains u = false →
      w.sendOk s.sendCount = true →
      w.fetch s.navs.length u = FetchResult.ok doc →
      (crawlStep w base cap s).1.urlQueue =
        processLinks w.resolve s.visitedUrls base rest doc.hrefs) ∧
    (processLinks testResolve [] "https://a.example" [] ["/page2"] =
      ["https://a.example/page2"] ∧
     processLinks testResolve [] "https://a.example" []
       ["https://other.example/x"] = []) := by
  refine ⟨?_, ?_, ?_, by decide, by decide⟩
  · intro resolve visitedUrls base urlQueue link r hne hvis hres
    rw [processLinks_single, if_pos ⟨hne, hvis⟩, hres]
  · intro resolve visitedUrls base urlQueue link hne hvis hres
    rw [processLinks_single, if_pos ⟨hne, hvis⟩, hres]
  · intro w base cap s u rest doc hq hcap hvis hsend hf
    simp only [crawlStep, hq]
    rw [if_pos hcap, if_neg (by rw [hvis]; exact Bool.false_ne_true), if_pos hsend, hf]

/-- Witness for C3's conditional parts at a concrete href. -/
theorem C3_witness :
    processLinks testResolve [] "https://a.example" [] ["/page2"] =
      (if jsStartsWith "https://a.example/page2" "https://a.example" then
        ([] : List String) ++ ["https://a.example/page2"]
      else []) :=
  C3_scope_containment.1 testResolve [] "https://a.example" [] "/page2"
    "https://a.example/page2" (by decide) (by decide) (by decide)

/-- C6 counterexample: when the seed links twice to a URL whose
navigation fails, that URL is popped twice while still absent from the
ledger, so it is passed to `page.goto` twice — the navigation sequence
has a duplicate. -/
theorem C6_counterexample :
    (runSession wDupNav 10 "https://a.example/").navs =
      ["https://a.example/", "https://a.example/b",
       "https://a.example/b"] ∧
    ¬ (runSession wDupNav 10 "https://a.example/").navs.Nodup := by
  refine ⟨by decide, by decide⟩

/-- C6 (amended): within one session, a URL is passed to the renderer's
navigate operation a second time only if its earlier navigation attempt
failed: whenever the same URL occupies two positions of the session's
navigation sequence, the attempt at the earlier position ended in a
navigation failure.  In particular, once a navigation attempt for a URL
succeeds (entering it into the visited ledger), that URL is never
navigated again. -/
theorem C6_renavigation_only_after_failure :
    ∀ w fuel url l₁ u l₂ l₃,
      (runSession w fuel url).navs = l₁ ++ u :: l₂ ++ u :: l₃ →
      w.fetch l₁.length u = FetchResult.navFail := by
  intro w fuel url l₁ u l₂ l₃ hsplit
  obtain ⟨s, tail, _, _, hnavs, _, hinv, _⟩ := runSession_spec w fuel url
  rw [hnavs] at hsplit
  exact hinv.dupFail l₁ u l₂ l₃ hsplit

/-- Witness for C6 (amended): in the `wDupNav` run the URL that is
navigated twice indeed failed on its first attempt. -/
theorem C6_witness :
    wDupNav.fetch 1 "https://a.example/b" = FetchResult.navFail :=
  C6_renavigation_only_after_failure wDupNav 10 "https://a.example/"
    ["https://a.example/"] "https://a.example/b" [] [] (by decide)

/-- C7 counterexample: with the seed linking twice to `b`, the frontier
is popped three times but only two `visiting` events are delivered — the
pop of the already-visited duplicate emits nothing — so "one `visiting`
event per frontier pop" fails (the final result event is still last). -/
theorem C7_counterexample :
    (runSession wDupSkip 10 "https://a.example/").pops =
      ["https://a.example/", "https://a.example/b",
       "https://a.example/b"] ∧
    (runSession wDupSkip 10 "https://a.example/").events =
      [Event.visiting "https://a.example/",
       Event.visiting "https://a.example/b",
       Event.result [⟨"https://a.example/", []⟩,
                     ⟨"https://a.example/b", []⟩]] := by
  refine ⟨by decide, by decide⟩

/-- C7 (amended): within one session the delivered events are exactly
one `visiting` event per navigation attempt — that is, per frontier pop
that passes the pop-time dedup check and whose send succeeds, emitted
before the navigation — in strict pop order, followed (if anything
follows at all) by a single final event, the result or an error, which
is therefore the last event of the session's stream. -/
theorem C7_event_stream_order :
    ∀ w fuel url, ∃ tail,
      (runSession w fuel url).events =
        (runSession w fuel url).navs.map Event.visiting ++ tail ∧
      (tail = [] ∨ (∃ d, tail = [Event.result d]) ∨
        ∃ m, tail = [Event.error m]) := by
  intro w fuel url
  obtain ⟨s, tail, _, _, hnavs, hev, hinv, htail⟩ := runSession_spec w fuel url
  exact ⟨tail, by rw [hev, hnavs, hinv.trace], htail⟩

/-- C8: an inbound message that fails JSON parsing, or whose parsed
payload has a missing or falsy `url`, produces exactly one error event
and creates no session — no renderer is launched and no `visiting` or
result event is ever emitted for that message. -/
theorem C8_malformed_request :
    ∀ w fuel m, w.sendOk 0 = true →
      (m = Inbound.malformed ∨ m = Inbound.parsed none ∨
        m = Inbound.parsed (some "")) →
      ∃ msg, handleMessage w fuel m = ([Event.error msg], none) := by
  intro w fuel m hsend hm
  rcases hm with rfl | rfl | rfl
  · exact ⟨"Invalid message format",
      by simp [handleMessage, sendEvent, hsend]⟩
  · exact ⟨"URL is required", by simp [handleMessage, sendEvent, hsend]⟩
  · exact ⟨"URL is required", by simp [handleMessage, sendEvent, hsend]⟩

/-- Witness for C8 at a concrete malformed message. -/
theorem C8_witness :
    ∃ msg, handleMessage wSimple 0 Inbound.malformed =
      ([Event.error msg], none) :=
  C8_malformed_request wSimple 0 Inbound.malformed rfl (Or.inl rfl)

/-- C9: on every exit path of a session — normal completion, abort on a
failed `visiting` send, or an unrecoverable exception — the renderer,
once launched, is closed before the session ends; no execution
terminates with the renderer still open. -/
theorem C9_renderer_released :
    ∀ w fuel url, (runSession w fuel url).launched = true →
      (runSession w fuel url).closed = true := by
  intro w fuel url
  unfold runSession
  split
  · intro h; simp at h
  · split
    · intro _; rfl
    · split
      · intro _; rfl
      · intro _; rfl
      · intro _; rfl

/-- Witness for C9 at a concrete session. -/
theorem C9_witness :
    (runSession wSimple 10 "https://a.example/").closed = true :=
  C9_renderer_released wSimple 10 "https://a.example/" (by decide)

/-- C10: whenever a navigation attempt succeeds but the rendered
document has no selected element with non-empty trimmed text, a
`PageRecord` with an empty section list is still appended to the
session's result set. -/
theorem C10_empty_page_record :
    ∀ w fuel url l₁ u l₂ d,
      (runSession w fuel url).navs = l₁ ++ u :: l₂ →
      w.fetch l₁.length u = FetchResult.ok d →
      (∀ e ∈ d.elems, jsTrim e.text = "") →
      (⟨u, []⟩ : PageRecord) ∈ (runSession w fuel url).scrapedData := by
  intro w fuel url l₁ u l₂ d hsplit hf hblank
  obtain ⟨s, tail, _, hscr, hnavs, _, hinv, _⟩ := runSession_spec w fuel url
  rw [hnavs] at hsplit
  rw [hscr]
  have h := hinv.okScraped l₁ u l₂ d hsplit hf
  rwa [extract_blank d.elems hblank] at h

/-- Witness for C10 at a concrete session whose seed page is empty. -/
theorem C10_witness :
    (⟨"https://a.example/", []⟩ : PageRecord) ∈
      (runSession wSimple 10 "https://a.example/").scrapedData :=
  C10_empty_page_record wSimple 10 "https://a.example/" []
    "https://a.example/" [] ⟨[], []⟩ (by decide) (by decide) (by simp)
